import Mathlib

/-!
Shallow embedding of the audioworklet helper module of verbal-web:
`src/audioworklet/pcm16sledecoder.cc` (the PCM16 decoder `vw_pcm16sleDecode`)
and `src/audioworklet/mem.cc` (the allocator passthrough `vw_alloc`).

Modelling choices:
- A source byte (C `uint8_t`) is a `Fin 256`; a source buffer is a total
  function `Nat → Fin 256` (the C code performs no bounds checks, and the
  claims quantify only over in-bounds indices).
- A destination buffer of C `float` (binary32) is modelled as `Nat → ℚ`.
  This is exact, not an approximation: every value the code can store is
  `m / 32768` with `m : ℤ`, `|m| ≤ 65535 < 2 ^ 24`, a dyadic rational whose
  significand fits in the 24-bit binary32 significand, so the int-to-float
  conversions and the division by `32768.0f` are all exact and the rational
  value determines the float bit pattern uniquely.
- The runtime endianness probe `(reinterpret_cast<const uint8_t*>(&one))[0] == 1`
  is modelled by a boolean parameter `hostLE`.
- The narrowing conversion of an out-of-range `int` to `int16_t` in the
  fallback branch wraps modulo 2^16 (two's complement), as on the
  emscripten/wasm target the code is compiled for.
- The decoder's observable effect is the pair (source contents after the
  call, destination contents after the call); the C source pointer is
  `const uint8_t*` and is never written, so the first component is `src`.
-/

namespace VerbalWeb

/-- A byte of the source buffer, the C type uint8_t. -/
abbrev Byte := Fin 256

/-- Two's-complement reinterpretation of a 16-bit pattern: models the C
narrowing conversion of an int in [0, 65535] to int16_t (wrapping, as on the
emscripten target). -/
def toSigned16 (u : Nat) : Int :=
  if u % 65536 < 32768 then ((u % 65536 : Nat) : Int)
  else ((u % 65536 : Nat) : Int) - 65536

/-- Unsigned 16-bit value loaded by the fast path: on a little-endian host,
the aligned load src16[i] yields the byte at offset 2*i as the low-order
byte and the byte at offset 2*i+1 as the high-order byte. -/
def fastU16 (src : Nat → Byte) (i : Nat) : Nat :=
  (src (2 * i)).val + 256 * (src (2 * i + 1)).val

/-- Sample written by the fast path at index i: dst[i] = src16[i] / 32768.0f,
where src16[i] is read through a const uint16_t* (UNSIGNED). Exact in
binary32, hence modelled in ℚ. -/
def fastSample (src : Nat → Byte) (i : Nat) : ℚ :=
  (fastU16 src i : ℚ) / 32768

/-- Sample written by the fallback (big-endian host) path at index i:
int16_t sample = (src[2*i] << 8) | src[2*i+1]; dst[i] = sample / 32768.0f.
Note the byte at offset 2*i lands in the HIGH-order position. -/
def slowSample (src : Nat → Byte) (i : Nat) : ℚ :=
  (toSigned16 (((src (2 * i)).val <<< 8) ||| (src (2 * i + 1)).val) : ℚ) / 32768

/-- The per-index sample value chosen by the endianness branch of
vw_pcm16sleDecode. -/
def sampleAt (hostLE : Bool) (src : Nat → Byte) (i : Nat) : ℚ :=
  if hostLE then fastSample src i else slowSample src i

/-- The decode loop: for i = 0 .. numSamples-1 in order, store the sample
value into dst[i]. -/
def decodeLoop (sample : Nat → ℚ) (dst : Nat → ℚ) (numSamples : Nat) :
    Nat → ℚ :=
  (List.range numSamples).foldl (fun d i => Function.update d i (sample i)) dst

/-- The function vw_pcm16sleDecode of pcm16sledecoder.cc. Inputs: the
endianness probe result, the source byte buffer, the destination float
buffer contents before the call, and numSamples. Result: the contents of
both buffers after the call; src is const and never written, dst is written
by whichever loop the endianness branch selects. -/
def vw_pcm16sleDecode (hostLE : Bool) (src : Nat → Byte) (dst : Nat → ℚ)
    (numSamples : Nat) : (Nat → Byte) × (Nat → ℚ) :=
  (src, decodeLoop (sampleAt hostLE src) dst numSamples)

/-- The function vw_alloc of mem.cc: return malloc(numBytes), a direct
passthrough to the host allocator. The host allocator is modelled as a
function returning an address or none (the NULL sentinel). -/
def vw_alloc (hostMalloc : Nat → Option Nat) (numBytes : Nat) : Option Nat :=
  hostMalloc numBytes

/-- Modelled from the spec (for divergence statements only, not part of the
code): the 16-bit two's-complement signed integer the spec prescribes at
index i, assembled little-endian: low-order byte at offset 2*i, high-order
byte at offset 2*i+1. -/
def specSigned16 (src : Nat → Byte) (i : Nat) : Int :=
  toSigned16 ((src (2 * i)).val ||| ((src (2 * i + 1)).val <<< 8))

/-- Modelled from the spec: the float value the spec prescribes at index i,
value = signed16 / 32768.0. -/
def specSample (src : Nat → Byte) (i : Nat) : ℚ :=
  (specSigned16 src i : ℚ) / 32768

/-- Concrete source buffer holding the single sample bytes 0x00, 0x80
(int16 value -32768 in little-endian order). -/
def srcMin : Nat → Byte := fun k => if k = 1 then (128 : Byte) else 0

/-- Concrete source buffer holding the single sample bytes 0x01, 0x00
(int16 value 1 in little-endian order). -/
def srcOne : Nat → Byte := fun k => if k = 0 then (1 : Byte) else 0

/-- Concrete source buffer holding the single sample bytes 0xFF, 0x7F
(int16 value 32767 in little-endian order). -/
def srcMax : Nat → Byte :=
  fun k => if k = 0 then (255 : Byte) else if k = 1 then (127 : Byte) else 0

/-- Concrete all-zero destination buffer. -/
def dst0 : Nat → ℚ := fun _ => 0

/-- Pointwise characterisation of the decode loop: index j holds the sample
value when j < numSamples and the previous contents otherwise. -/
theorem decodeLoop_apply (sample : Nat → ℚ) (dst : Nat → ℚ) (n j : Nat) :
    decodeLoop sample dst n j = if j < n then sample j else dst j := by
  induction n with
  | zero => simp [decodeLoop]
  | succ n ih =>
    unfold decodeLoop at ih ⊢
    rw [List.range_succ, List.foldl_append, List.foldl_cons, List.foldl_nil]
    rcases eq_or_ne j n with rfl | hne
    · simp [Function.update]
    · rw [Function.update_noteq hne, ih]
      rcases Nat.lt_trichotomy j n with hlt | heq | hgt
      · rw [if_pos hlt, if_pos (Nat.lt_succ_of_lt hlt)]
      · exact absurd heq hne
      · rw [if_neg (Nat.lt_asymm hgt), if_neg (by omega)]

/-- Pointwise characterisation of the whole decoder on the destination
buffer. -/
theorem decode_apply (hostLE : Bool) (src : Nat → Byte) (dst : Nat → ℚ)
    (n j : Nat) :
    (vw_pcm16sleDecode hostLE src dst n).2 j =
      if j < n then sampleAt hostLE src j else dst j :=
  decodeLoop_apply _ _ _ _

/-- Value written at index 0 by a single-sample decode call. -/
theorem decode_at_zero (hostLE : Bool) (src : Nat → Byte) (dst : Nat → ℚ) :
    (vw_pcm16sleDecode hostLE src dst 1).2 0 = sampleAt hostLE src 0 := by
  rw [decode_apply, if_pos Nat.zero_lt_one]

/-- The endianness branch on a little-endian host selects the fast path. -/
theorem sampleAt_true (src : Nat → Byte) (i : Nat) :
    sampleAt true src i = fastSample src i := rfl

/-- The endianness branch on a big-endian host selects the fallback path. -/
theorem sampleAt_false (src : Nat → Byte) (i : Nat) :
    sampleAt false src i = slowSample src i := rfl

/-- Fast-path sample value for the buffer holding bytes 0x00, 0x80. -/
theorem fastSample_srcMin : fastSample srcMin 0 = 1 := by
  unfold fastSample
  rw [show fastU16 srcMin 0 = 32768 from by decide]
  norm_num

/-- Fast-path sample value for the buffer holding bytes 0x01, 0x00. -/
theorem fastSample_srcOne : fastSample srcOne 0 = 1 / 32768 := by
  unfold fastSample
  rw [show fastU16 srcOne 0 = 1 from by decide]
  norm_num

/-- Fast-path sample value for the buffer holding bytes 0xFF, 0x7F. -/
theorem fastSample_srcMax : fastSample srcMax 0 = 32767 / 32768 := by
  unfold fastSample
  rw [show fastU16 srcMax 0 = 32767 from by decide]
  norm_num

/-- Fallback sample value for the buffer holding bytes 0x00, 0x80: the bytes
land in swapped positions, giving 128 instead of -32768. -/
theorem slowSample_srcMin : slowSample srcMin 0 = 128 / 32768 := by
  unfold slowSample
  rw [show toSigned16 (((srcMin (2 * 0)).val <<< 8) ||| (srcMin (2 * 0 + 1)).val)
        = 128 from by decide]
  norm_num

/-- Fallback sample value for the buffer holding bytes 0x01, 0x00: the bytes
land in swapped positions, giving 256 instead of 1. -/
theorem slowSample_srcOne : slowSample srcOne 0 = 256 / 32768 := by
  unfold slowSample
  rw [show toSigned16 (((srcOne (2 * 0)).val <<< 8) ||| (srcOne (2 * 0 + 1)).val)
        = 256 from by decide]
  norm_num

/-- Fallback sample value for the buffer holding bytes 0xFF, 0x7F: the bytes
land in swapped positions, giving -129 instead of 32767. -/
theorem slowSample_srcMax : slowSample srcMax 0 = -129 / 32768 := by
  unfold slowSample
  rw [show toSigned16 (((srcMax (2 * 0)).val <<< 8) ||| (srcMax (2 * 0 + 1)).val)
        = -129 from by decide]
  norm_num

/-- C1: the claim says decode writes dst[i] = v / 32768.0 whenever the bytes
at offsets 2*i, 2*i+1 encode the signed 16-bit integer v in little-endian
order. The code violates it: at input bytes 0x00, 0x80 (v = -32768) the
little-endian fast path reads the sample through const uint16_t* as an
UNSIGNED value and writes 32768 / 32768 = 1, not the specified -1. -/
theorem c1_fast_path_unsigned_at_minus32768 :
    (vw_pcm16sleDecode true srcMin dst0 1).2 0 = 1 ∧
    specSample srcMin 0 = -1 := by
  constructor
  · rw [decode_at_zero, sampleAt_true, fastSample_srcMin]
  · unfold specSample
    rw [show specSigned16 srcMin 0 = -32768 from by decide]
    norm_num

/-- C2: the claim says the fast path and the byte-by-byte fallback path
produce identical output for identical input bytes. The code violates it: at
input bytes 0x01, 0x00 the fast path writes 1 / 32768 while the fallback,
which places src[2*i] in the HIGH byte, writes 256 / 32768. -/
theorem c2_fast_and_fallback_paths_differ :
    (vw_pcm16sleDecode true srcOne dst0 1).2 0 = 1 / 32768 ∧
    (vw_pcm16sleDecode false srcOne dst0 1).2 0 = 256 / 32768 ∧
    (vw_pcm16sleDecode true srcOne dst0 1).2 0 ≠
      (vw_pcm16sleDecode false srcOne dst0 1).2 0 := by
  have hf : (vw_pcm16sleDecode true srcOne dst0 1).2 0 = 1 / 32768 := by
    rw [decode_at_zero, sampleAt_true, fastSample_srcOne]
  have hs : (vw_pcm16sleDecode false srcOne dst0 1).2 0 = 256 / 32768 := by
    rw [decode_at_zero, sampleAt_false, slowSample_srcOne]
  refine ⟨hf, hs, ?_⟩
  rw [hf, hs]
  norm_num

/-- C3: the claim says both paths take the byte at offset 2*i as the
low-order byte and the byte at offset 2*i+1 as the high-order byte of a
two's-complement signed 16-bit integer. The code violates it on both paths:
the fallback swaps the byte roles (bytes 0x01, 0x00 yield 256 / 32768
instead of 1 / 32768), and the fast path drops the sign (bytes 0x00, 0x80
yield +1 instead of -1). -/
theorem c3_byte_order_and_signedness_wrong :
    (vw_pcm16sleDecode false srcOne dst0 1).2 0 = 256 / 32768 ∧
    (vw_pcm16sleDecode true srcMin dst0 1).2 0 = 1 ∧
    specSigned16 srcOne 0 = 1 ∧
    specSigned16 srcMin 0 = -32768 := by
  refine ⟨?_, ?_, by decide, by decide⟩
  · rw [decode_at_zero, sampleAt_false, slowSample_srcOne]
  · rw [decode_at_zero, sampleAt_true, fastSample_srcMin]

/-- C4: the claim gives boundary decodings -32768 ↦ -1.0, 0 ↦ 0.0 and
32767 ↦ 32767 / 32768. The code violates the signed boundaries: bytes
0x00, 0x80 decode to +1 on the fast path and 128 / 32768 on the fallback
(neither is -1), and bytes 0xFF, 0x7F decode to -129 / 32768 on the
fallback (the fast path alone gets 32767 / 32768). -/
theorem c4_boundary_values_wrong :
    (vw_pcm16sleDecode true srcMin dst0 1).2 0 = 1 ∧
    (vw_pcm16sleDecode false srcMin dst0 1).2 0 = 128 / 32768 ∧
    (vw_pcm16sleDecode true srcMax dst0 1).2 0 = 32767 / 32768 ∧
    (vw_pcm16sleDecode false srcMax dst0 1).2 0 = -129 / 32768 := by
  refine ⟨?_, ?_, ?_, ?_⟩
  · rw [decode_at_zero, sampleAt_true, fastSample_srcMin]
  · rw [decode_at_zero, sampleAt_false, slowSample_srcMin]
  · rw [decode_at_zero, sampleAt_true, fastSample_srcMax]
  · rw [decode_at_zero, sampleAt_false, slowSample_srcMax]

/-- C5: the claim says every float decode writes lies in [-1.0, 1.0). The
code violates it: at input bytes 0x00, 0x80 the fast path writes exactly 1,
which is not less than 1. -/
theorem c5_fast_path_output_reaches_one :
    (vw_pcm16sleDecode true srcMin dst0 1).2 0 = 1 ∧
    ¬ (vw_pcm16sleDecode true srcMin dst0 1).2 0 < 1 := by
  have h1 : (vw_pcm16sleDecode true srcMin dst0 1).2 0 = 1 := by
    rw [decode_at_zero, sampleAt_true, fastSample_srcMin]
  refine ⟨h1, ?_⟩
  rw [h1]
  exact lt_irrefl 1

/-- C6: decode with numSamples = 0 leaves both buffers unchanged: neither
loop body runs, no byte of src and no element of dst is touched. -/
theorem c6_zero_samples_leaves_buffers_unchanged (hostLE : Bool)
    (src : Nat → Byte) (dst : Nat → ℚ) (j : Nat) :
    (vw_pcm16sleDecode hostLE src dst 0).1 j = src j ∧
    (vw_pcm16sleDecode hostLE src dst 0).2 j = dst j :=
  ⟨rfl, rfl⟩

/-- C7: vw_alloc is a direct passthrough to the host allocator malloc: it
returns exactly what the host allocator returns, so it yields the null
sentinel (none) precisely when the host memory manager cannot satisfy the
request, with no retry. -/
theorem c7_alloc_is_direct_passthrough (hostMalloc : Nat → Option Nat)
    (numBytes : Nat) :
    vw_alloc hostMalloc numBytes = hostMalloc numBytes ∧
    (vw_alloc hostMalloc numBytes = none ↔ hostMalloc numBytes = none) :=
  ⟨rfl, Iff.rfl⟩

/-- C8: decode is deterministic and stateless: its output at every written
index depends only on the input bytes and numSamples, not on the prior
contents of the destination buffer, so two calls on the same input into
different destination buffers produce identical contents. -/
theorem c8_result_independent_of_prior_dst (hostLE : Bool)
    (src : Nat → Byte) (dst1 dst2 : Nat → ℚ) (n i : Nat) (h : i < n) :
    (vw_pcm16sleDecode hostLE src dst1 n).2 i =
      (vw_pcm16sleDecode hostLE src dst2 n).2 i := by
  show decodeLoop _ dst1 n i = decodeLoop _ dst2 n i
  rw [decodeLoop_apply, decodeLoop_apply, if_pos h, if_pos h]

/-- C8 witness: concrete instance with two different destination buffers. -/
theorem c8_result_independent_of_prior_dst_witness :
    (0 : Nat) < 1 ∧
    (vw_pcm16sleDecode true srcOne dst0 1).2 0 =
      (vw_pcm16sleDecode true srcOne (fun _ => 5) 1).2 0 :=
  ⟨by decide,
   c8_result_independent_of_prior_dst true srcOne dst0 (fun _ => 5) 1 0
     (by decide)⟩

/-- C9: decode never mutates the source buffer and overwrites exactly
dst[0 .. numSamples): the source contents after the call equal src, every
index at or beyond numSamples keeps its previous value, and every index
below numSamples holds the freshly computed sample. -/
theorem c9_decode_frame_effect (hostLE : Bool) (src : Nat → Byte)
    (dst : Nat → ℚ) (n : Nat) :
    (vw_pcm16sleDecode hostLE src dst n).1 = src ∧
    (∀ j, n ≤ j → (vw_pcm16sleDecode hostLE src dst n).2 j = dst j) ∧
    (∀ i, i < n →
      (vw_pcm16sleDecode hostLE src dst n).2 i = sampleAt hostLE src i) := by
  refine ⟨rfl, fun j hj => ?_, fun i hi => ?_⟩
  · show decodeLoop _ dst n j = dst j
    rw [decodeLoop_apply, if_neg (Nat.not_lt.mpr hj)]
  · show decodeLoop _ dst n i = _
    rw [decodeLoop_apply, if_pos hi]

/-- C9 witness: concrete instance at numSamples = 1, checking src identity,
an untouched index and an overwritten index. -/
theorem c9_decode_frame_effect_witness :
    (vw_pcm16sleDecode true srcOne dst0 1).1 = srcOne ∧
    (vw_pcm16sleDecode true srcOne dst0 1).2 3 = dst0 3 ∧
    (vw_pcm16sleDecode true srcOne dst0 1).2 0 = sampleAt true srcOne 0 :=
  ⟨(c9_decode_frame_effect true srcOne dst0 1).1,
   (c9_decode_frame_effect true srcOne dst0 1).2.1 3 (by decide),
   (c9_decode_frame_effect true srcOne dst0 1).2.2 0 (by decide)⟩

/-- C10: on a little-endian host the fast path reads each sample as an
unsigned 16-bit integer before dividing by 32768, so every float it writes
is non-negative and strictly less than 2, for every input byte buffer. -/
theorem c10_fast_path_output_in_zero_two (src : Nat → Byte) (dst : Nat → ℚ)
    (n i : Nat) (h : i < n) :
    0 ≤ (vw_pcm16sleDecode true src dst n).2 i ∧
    (vw_pcm16sleDecode true src dst n).2 i < 2 := by
  have hval : (vw_pcm16sleDecode true src dst n).2 i = fastSample src i := by
    show decodeLoop _ dst n i = _
    rw [decodeLoop_apply, if_pos h]
    rfl
  rw [hval]
  unfold fastSample
  constructor
  · positivity
  · rw [div_lt_iff₀ (by norm_num)]
    have hb : fastU16 src i < 65536 := by
      have h1 := (src (2 * i)).isLt
      have h2 := (src (2 * i + 1)).isLt
      unfold fastU16
      omega
    calc (fastU16 src i : ℚ) < 65536 := by exact_mod_cast hb
    _ = 2 * 32768 := by norm_num

/-- C10 witness: concrete instance at the all-0xFF extreme and at the
claimed bound. -/
theorem c10_fast_path_output_in_zero_two_witness :
    0 ≤ (vw_pcm16sleDecode true srcMax dst0 1).2 0 ∧
    (vw_pcm16sleDecode true srcMax dst0 1).2 0 < 2 :=
  c10_fast_path_output_in_zero_two srcMax dst0 1 0 (by decide)

end VerbalWeb
